import Mathlib

/-!
Shallow embedding of `wifi_portal/app.py`, the Flask WiFi provisioning
portal, together with proofs about its behaviour.

Modelling conventions:
* Python `str` values are embedded as `List Char`; `pstr` turns a Lean
  string literal into that representation.  Python `len` is `List.length`,
  `str.strip()` is `pyStrip`, `str.split(c)` is `splitOnChar c`.
* The external `nmcli` tool is modelled by passing its observable output
  into the embedded functions: the scan endpoint receives the exit code and
  the stdout lines of the scan query, the status endpoint receives the list
  of active connections, and the background watchdog receives the list of
  active connection names seen at verification time.
* `grep PAT` on a line is modelled as literal substring containment
  (`containsSub`); the interpolated patterns of the source contain no
  regex metacharacters beyond what literal matching covers.
* Log-file writes (`echo ... >> "$LOG_FILE"`) are pure diagnostics and are
  not part of the event traces.
-/

namespace WifiPortal

/-- Embed a Lean string literal as a Python string value (a list of chars). -/
def pstr (s : String) : List Char := s.data

/-- The characters removed by Python `str.strip()` (ASCII whitespace:
space, tab, newline, carriage return, vertical tab, form feed). -/
def isPySpace (c : Char) : Bool :=
  c = ' ' || c = '\t' || c = '\n' || c = '\r' || c = Char.ofNat 11 || c = Char.ofNat 12

/-- Python `str.strip()`: drop leading and trailing whitespace. -/
def pyStrip (s : List Char) : List Char :=
  ((s.dropWhile isPySpace).reverse.dropWhile isPySpace).reverse

/-- Python `str.split(sep)` for a single-character separator: keeps empty
fields, returns `[[]]` on the empty string. -/
def splitOnChar (sep : Char) : List Char → List (List Char)
  | [] => [[]]
  | c :: cs =>
    if c = sep then [] :: splitOnChar sep cs
    else
      match splitOnChar sep cs with
      | [] => [[c]]
      | t :: ts => (c :: t) :: ts

/-- `app.py` lines 17-18: the path of the external join script.  The source
computes it from the module's install location at start-up; the embedding
fixes one representative install path (the theorems below depend only on it
containing no double quote and no space). -/
def CONFIGURE_WIFI_SCRIPT : List Char := pstr "/opt/wifi-portal/scripts/configure_wifi.sh"

/-- One entry of the `/scan` response (`app.py` lines 58-62). -/
structure Network where
  ssid : List Char
  signal : List Char
  secured : Bool
deriving DecidableEq, Repr

/-- The per-line part of the scan loop (`app.py` lines 47-62): skip empty
lines, split on `:`, require at least the SSID and SIGNAL fields, default a
missing SECURITY field to empty, and reject the empty and `--` placeholder
SSIDs.  The `seen_ssids` dedup check of the loop is applied separately in
`collectNetworks`; its conjunct order inside the source's `if` has no
side effects, so factoring it out is exact. -/
def candidateOf? (line : List Char) : Option Network :=
  if line = [] then none
  else
    let parts := splitOnChar ':' line
    if 2 ≤ parts.length then
      let ssid := parts.getD 0 []
      let signal := parts.getD 1 (pstr "0")
      let security := parts.getD 2 []
      if ssid ≠ [] ∧ ssid ≠ pstr "--" then
        some ⟨ssid, signal, decide (security ≠ [] ∧ security ≠ pstr "--")⟩
      else none
    else none

/-- The scan loop of `get_available_networks` (`app.py` lines 43-63):
accumulate candidates in order, keeping only the first line for each SSID
(`seen` plays the role of `seen_ssids`). -/
def collectNetworks : List (List Char) → List (List Char) → List Network
  | [], _ => []
  | line :: rest, seen =>
    match candidateOf? line with
    | none => collectNetworks rest seen
    | some n =>
      if n.ssid ∈ seen then collectNetworks rest seen
      else n :: collectNetworks rest (n.ssid :: seen)

/-- Numeric value of an all-digit string (`int(...)` on such input). -/
def digitsVal (s : List Char) : Nat :=
  s.foldl (fun acc c => 10 * acc + (c.toNat - 48)) 0

/-- The sort key of `app.py` line 66:
`int(x['signal']) if x['signal'].isdigit() else 0`
(Python `isdigit` is true iff the string is non-empty and all digits). -/
def sigKey (n : Network) : Nat :=
  if n.signal ≠ [] ∧ n.signal.all Char.isDigit then digitsVal n.signal else 0

/-- Descending-signal order used by the sort on `app.py` line 66. -/
def sigGE (a b : Network) : Prop := sigKey b ≤ sigKey a

instance : DecidableRel sigGE := fun _ _ => Nat.decLe _ _

instance : IsTotal Network sigGE := ⟨fun a b => Nat.le_total (sigKey b) (sigKey a)⟩

instance : IsTrans Network sigGE := ⟨fun _ _ _ hab hbc => Nat.le_trans hbc hab⟩

/-- `networks.sort(key=..., reverse=True)` (`app.py` line 66): Python's sort
is a stable sort by descending key; insertion sort with `sigGE` computes the
same list (insertion of an earlier element lands strictly before every
already-placed element of equal key, which is exactly stability). -/
def sortNetworks (l : List Network) : List Network :=
  List.insertionSort sigGE l

/-- `get_available_networks` (`app.py` lines 39-67), as a function of the
scan command's exit code and stdout lines. -/
def get_available_networks (code : Int) (lines : List (List Char)) : List Network :=
  let networks := if code = 0 then collectNetworks lines [] else []
  sortNetworks networks

/-- `validate_ssid` (`app.py` lines 70-74). -/
def validate_ssid (ssid : List Char) : Bool :=
  if ssid = [] ∨ 32 < ssid.length then false else true

/-- `validate_password` (`app.py` lines 77-83). -/
def validate_password (password : List Char) : Bool :=
  if password = [] then false
  else if password.length < 8 ∨ 63 < password.length then false
  else true

/-- The JSON body of a `POST /configure` request (`app.py` lines 103-106):
`ssid`, `password` (default `''`) and the `hidden` flag (default false). -/
structure ConfigureReq where
  ssid : List Char
  password : List Char
  hidden : Bool
deriving DecidableEq, Repr

/-- The HTTP response of `/configure`: the `success` flag of the JSON body
and the HTTP status code (Flask's default 200 on the acceptance path). -/
structure ConfigureResp where
  success : Bool
  status : Nat
deriving DecidableEq, Repr

/-- The data handed to the spawned background watchdog (`app.py` lines
121-161): the generated temp script interpolates the (stripped) ssid, the
password and the hidden flag, and is then started with `subprocess.Popen`. -/
structure BackgroundJob where
  ssidUsed : List Char
  passwordUsed : List Char
  hidden : Bool
deriving DecidableEq, Repr

/-- The join command line of `app.py` lines 122-124:
`f'bash "{CONFIGURE_WIFI_SCRIPT}" "{ssid}" "{password}" 200'`,
extended with `' --hidden'` when the hidden flag is set. -/
def buildCmd (ssid password : List Char) (hidden : Bool) : List Char :=
  let cmd := pstr "bash \"" ++ CONFIGURE_WIFI_SCRIPT ++ pstr "\" \"" ++ ssid
    ++ pstr "\" \"" ++ password ++ pstr "\" 200"
  if hidden then cmd ++ pstr " --hidden" else cmd

/-- The join command line the watchdog of a job executes. -/
def jobCmd (job : BackgroundJob) : List Char :=
  buildCmd job.ssidUsed job.passwordUsed job.hidden

/-- `configure_wifi` (`app.py` lines 99-172): strip the ssid, validate both
credentials (each failure returns the 400 JSON error before anything else
happens), then write and spawn the background script and answer success.
The second component is the spawned watchdog, `none` when nothing was
spawned.  The `except` 500 path (lines 168-172) guards JSON/file-system
faults that have no counterpart in the embedding. -/
def configure_wifi (req : ConfigureReq) : ConfigureResp × Option BackgroundJob :=
  let ssid := pyStrip req.ssid
  if !validate_ssid ssid then (⟨false, 400⟩, none)
  else if !validate_password req.password then (⟨false, 400⟩, none)
  else (⟨true, 200⟩, some ⟨ssid, req.password, req.hidden⟩)

/-- Does `pat` occur as a prefix of `l`? -/
def listStartsWith : List Char → List Char → Bool
  | [], _ => true
  | _ :: _, [] => false
  | p :: ps, c :: cs => p = c && listStartsWith ps cs

/-- Does `pat` occur as a contiguous substring of `l`?  This models
`grep PAT` matching a single line, for the literal patterns the source
interpolates. -/
def containsSub (pat : List Char) : List Char → Bool
  | [] => pat.isEmpty
  | c :: cs => listStartsWith pat (c :: cs) || containsSub pat cs

/-- One active connection as reported by the external network manager:
the fields `nmcli` can be asked to print for it. -/
structure ActiveConn where
  name : List Char
  type : List Char
  state : List Char
  ip4 : List Char

/-- The JSON body of `GET /status`. -/
structure StatusResp where
  connected : Bool
  ssid : Option (List Char)
  ip : Option (List Char)
deriving DecidableEq, Repr

/-- `status` (`app.py` lines 175-202), as a function of the active
connections the external network manager reports.  First command:
`nmcli -t -f TYPE,STATE connection show --active | grep '802-11-wireless:activated'`
(exit code 0 iff some `TYPE:STATE` line matches).  Second command:
`nmcli -t -f NAME,IP4.ADDRESS connection show --active | grep '802-11-wireless'`
(its stdout is the matching `NAME:IP4.ADDRESS` lines; exit code 0 iff at
least one survives); on success the first surviving line is split on `:`
into the reported ssid and ip. -/
def statusOf (conns : List ActiveConn) : StatusResp :=
  let lines1 := conns.map fun c => c.type ++ ':' :: c.state
  if lines1.any (containsSub (pstr "802-11-wireless:activated")) then
    let lines2 := (conns.map fun c => c.name ++ ':' :: c.ip4).filter
      (containsSub (pstr "802-11-wireless"))
    match lines2 with
    | [] => ⟨false, none, none⟩
    | line :: _ =>
      let parts := splitOnChar ':' line
      ⟨true, some (parts.getD 0 (pstr "Unknown")), some (parts.getD 1 (pstr "N/A"))⟩
  else ⟨false, none, none⟩

/-- The word-splitting `bash` applies to the generated command line,
restricted to the double-quote discipline: a space outside quotes ends the
current token, a double quote toggles quoting (opening one starts a token),
every other character extends the current token.  This is the contract
under which the source's `f'... "{ssid}" ...'` interpolation is meant to
pass positional arguments.  Real bash additionally performs parameter
expansion (`$`), command substitution (backtick) and backslash escaping
INSIDE double quotes; the embedding does not model those expansions, so
this splitter coincides with bash exactly on command lines whose
interpolated strings contain none of those shell-active characters
(`shellLiteral` below) — every theorem resting on it carries that
hypothesis. -/
def shellSplitAux (inQ : Bool) (cur : Option (List Char)) : List Char → List (List Char)
  | [] => match cur with
    | none => []
    | some t => [t]
  | c :: cs =>
    if inQ then
      if c = '"' then shellSplitAux false (some (cur.getD [])) cs
      else shellSplitAux true (some (cur.getD [] ++ [c])) cs
    else
      if c = '"' then shellSplitAux true (some (cur.getD [])) cs
      else if c = ' ' then
        match cur with
        | none => shellSplitAux false none cs
        | some t => t :: shellSplitAux false none cs
      else shellSplitAux false (some (cur.getD [] ++ [c])) cs

/-- Split a full command line into its argument words.  Faithful to bash
only on the `shellLiteral` class of interpolated strings; see
`shellSplitAux`. -/
def shellSplit (s : List Char) : List (List Char) :=
  shellSplitAux false none s

/-- The POSIX shell treats exactly four characters specially inside a
double-quoted string: the closing double quote itself, dollar (parameter
expansion), backtick (command substitution) and backslash (escaping).  A
string avoiding all four passes through a double-quoted context literally,
which is precisely the regime `shellSplit` models; `Char.ofNat 96` and
`Char.ofNat 92` are the backtick and backslash characters. -/
def shellLiteral (s : List Char) : Prop :=
  '"' ∉ s ∧ '$' ∉ s ∧ Char.ofNat 96 ∉ s ∧ Char.ofNat 92 ∉ s

/-- The candidate contributed by the first raw scan line that parses to the
given SSID (the specification's "first occurrence wins" reading of the scan
loop, phrased with the source-derived per-line parser `candidateOf?`). -/
def firstCandidate? (lines : List (List Char)) (s : List Char) : Option Network :=
  match lines with
  | [] => none
  | line :: rest =>
    match candidateOf? line with
    | some n => if n.ssid = s then some n else firstCandidate? rest s
    | none => firstCandidate? rest s

/-! ### Helper lemmas -/

theorem head?_dropWhile_false {p : Char → Bool} :
    ∀ {l : List Char} {c : Char}, (l.dropWhile p).head? = some c → p c = false := by
  intro l
  induction l with
  | nil => intro c h; simp [List.dropWhile] at h
  | cons x xs ih =>
    intro c h
    by_cases hp : p x
    · rw [List.dropWhile_cons_of_pos hp] at h
      exact ih h
    · rw [List.dropWhile_cons_of_neg hp] at h
      simp at h
      rw [← h]
      exact Bool.eq_false_iff.mpr hp

theorem getLast?_dropWhile_eq {p : Char → Bool} :
    ∀ {l : List Char}, l.dropWhile p ≠ [] → (l.dropWhile p).getLast? = l.getLast? := by
  intro l
  induction l with
  | nil => intro h; simp [List.dropWhile] at h
  | cons x xs ih =>
    intro h
    by_cases hp : p x
    · rw [List.dropWhile_cons_of_pos hp] at h ⊢
      cases xs with
      | nil => simp [List.dropWhile] at h
      | cons y ys =>
        rw [List.getLast?_cons_cons]
        exact ih h
    · rw [List.dropWhile_cons_of_neg hp]

theorem pyStrip_head_not_space {s : List Char} {c : Char}
    (h : (pyStrip s).head? = some c) : isPySpace c = false := by
  unfold pyStrip at h
  rw [List.head?_reverse] at h
  have hne : (s.dropWhile isPySpace).reverse.dropWhile isPySpace ≠ [] := by
    intro he
    rw [he] at h
    simp at h
  rw [getLast?_dropWhile_eq hne, List.getLast?_reverse] at h
  exact head?_dropWhile_false h

theorem pyStrip_getLast_not_space {s : List Char} {c : Char}
    (h : (pyStrip s).getLast? = some c) : isPySpace c = false := by
  unfold pyStrip at h
  rw [List.getLast?_reverse] at h
  exact head?_dropWhile_false h

theorem pyStrip_all_space {s : List Char}
    (h : ∀ c ∈ s, isPySpace c = true) : pyStrip s = [] := by
  unfold pyStrip
  rw [List.dropWhile_eq_nil_iff.mpr h]
  rfl

theorem configure_accepted {req : ConfigureReq} {job : BackgroundJob}
    (h : (configure_wifi req).2 = some job) :
    job = ⟨pyStrip req.ssid, req.password, req.hidden⟩ ∧
    validate_ssid (pyStrip req.ssid) = true ∧
    validate_password req.password = true := by
  unfold configure_wifi at h
  cases hs : validate_ssid (pyStrip req.ssid) with
  | false => simp [hs] at h
  | true =>
    cases hp : validate_password req.password with
    | false => simp [hs, hp] at h
    | true =>
      simp only [hs, hp, Bool.not_true, Bool.false_eq_true, if_false] at h
      simp at h
      exact ⟨h.symm, rfl, rfl⟩

theorem candidateOf?_good_ssid {line : List Char} {n : Network}
    (h : candidateOf? line = some n) : n.ssid ≠ [] ∧ n.ssid ≠ pstr "--" := by
  unfold candidateOf? at h
  by_cases h1 : line = []
  · rw [if_pos h1] at h
    simp at h
  · rw [if_neg h1] at h
    simp at h
    obtain ⟨_, hcond, heq⟩ := h
    rw [← heq]
    exact hcond

theorem collect_ssid_not_seen :
    ∀ (lines seen : List (List Char)) (n : Network),
      n ∈ collectNetworks lines seen → n.ssid ∉ seen := by
  intro lines
  induction lines with
  | nil => intro seen n hn; simp [collectNetworks] at hn
  | cons line rest ih =>
    intro seen n hn
    cases hc : candidateOf? line with
    | none =>
      simp only [collectNetworks, hc] at hn
      exact ih seen n hn
    | some m =>
      simp only [collectNetworks, hc] at hn
      by_cases hm : m.ssid ∈ seen
      · rw [if_pos hm] at hn
        exact ih seen n hn
      · rw [if_neg hm] at hn
        rcases List.mem_cons.mp hn with h | h
        · rw [h]; exact hm
        · have hni := ih _ n h
          exact fun hin => hni (List.mem_cons_of_mem _ hin)

theorem collect_map_ssid_nodup :
    ∀ (lines seen : List (List Char)),
      ((collectNetworks lines seen).map Network.ssid).Nodup := by
  intro lines
  induction lines with
  | nil => intro seen; simp [collectNetworks]
  | cons line rest ih =>
    intro seen
    cases hc : candidateOf? line with
    | none => simp only [collectNetworks, hc]; exact ih seen
    | some m =>
      simp only [collectNetworks, hc]
      by_cases hm : m.ssid ∈ seen
      · rw [if_pos hm]; exact ih seen
      · rw [if_neg hm]
        simp only [List.map_cons, List.nodup_cons]
        refine ⟨?_, ih _⟩
        intro hmem
        rcases List.mem_map.mp hmem with ⟨n, hn, hend⟩
        have hni := collect_ssid_not_seen _ _ _ hn
        exact hni (hend ▸ List.mem_cons_self _ _)

theorem collect_good_ssid :
    ∀ (lines seen : List (List Char)) (n : Network),
      n ∈ collectNetworks lines seen → n.ssid ≠ [] ∧ n.ssid ≠ pstr "--" := by
  intro lines
  induction lines with
  | nil => intro seen n hn; simp [collectNetworks] at hn
  | cons line rest ih =>
    intro seen n hn
    cases hc : candidateOf? line with
    | none =>
      simp only [collectNetworks, hc] at hn
      exact ih seen n hn
    | some m =>
      simp only [collectNetworks, hc] at hn
      by_cases hm : m.ssid ∈ seen
      · rw [if_pos hm] at hn
        exact ih seen n hn
      · rw [if_neg hm] at hn
        rcases List.mem_cons.mp hn with h | h
        · rw [h]; exact candidateOf?_good_ssid hc
        · exact ih _ n h

theorem collect_first_wins :
    ∀ (lines seen : List (List Char)) (n : Network),
      n ∈ collectNetworks lines seen → firstCandidate? lines n.ssid = some n := by
  intro lines
  induction lines with
  | nil => intro seen n hn; simp [collectNetworks] at hn
  | cons line rest ih =>
    intro seen n hn
    cases hc : candidateOf? line with
    | none =>
      simp only [collectNetworks, hc] at hn
      simp only [firstCandidate?, hc]
      exact ih seen n hn
    | some m =>
      simp only [collectNetworks, hc] at hn
      simp only [firstCandidate?, hc]
      by_cases hm : m.ssid ∈ seen
      · rw [if_pos hm] at hn
        have hns := collect_ssid_not_seen _ _ _ hn
        rw [if_neg (fun he : m.ssid = n.ssid => hns (he ▸ hm))]
        exact ih seen n hn
      · rw [if_neg hm] at hn
        rcases List.mem_cons.mp hn with h | h
        · rw [h, if_pos rfl]
        · have hns := collect_ssid_not_seen _ _ _ h
          rw [if_neg (fun he : m.ssid = n.ssid => hns (he ▸ List.mem_cons_self _ _))]
          exact ih _ n h

theorem sortNetworks_perm (l : List Network) : (sortNetworks l).Perm l :=
  List.perm_insertionSort _ _

theorem splitOnChar_no_sep {sep : Char} :
    ∀ {s : List Char}, sep ∉ s → splitOnChar sep s = [s] := by
  intro s
  induction s with
  | nil => intro _; rfl
  | cons c cs ih =>
    intro h
    have hc : ¬c = sep := fun he => h (he ▸ List.mem_cons_self _ _)
    have hcs : sep ∉ cs := fun hm => h (List.mem_cons_of_mem _ hm)
    simp only [splitOnChar, if_neg hc, ih hcs]

theorem splitOnChar_append_sep {sep : Char} :
    ∀ {s : List Char} (t : List Char), sep ∉ s →
      splitOnChar sep (s ++ sep :: t) = s :: splitOnChar sep t := by
  intro s
  induction s with
  | nil =>
    intro t _
    simp [splitOnChar]
  | cons c cs ih =>
    intro t h
    have hc : ¬c = sep := fun he => h (he ▸ List.mem_cons_self _ _)
    have hcs : sep ∉ cs := fun hm => h (List.mem_cons_of_mem _ hm)
    simp only [List.cons_append, splitOnChar, if_neg hc, List.append_eq]
    rw [ih t hcs]

theorem shellSplitAux_quoted :
    ∀ (t : List Char), '"' ∉ t → ∀ (acc rest : List Char),
      shellSplitAux true (some acc) (t ++ '"' :: rest) =
        shellSplitAux false (some (acc ++ t)) rest := by
  intro t
  induction t with
  | nil =>
    intro _ acc rest
    simp [shellSplitAux]
  | cons c cs ih =>
    intro h acc rest
    have hc : ¬c = '"' := fun he => h (he ▸ List.mem_cons_self _ _)
    have hcs : '"' ∉ cs := fun hm => h (List.mem_cons_of_mem _ hm)
    simp only [List.cons_append, shellSplitAux, if_neg hc, if_true,
      Option.getD_some, List.append_eq]
    rw [ih hcs]
    simp

theorem shellSplitAux_dq_space (t : List Char) (ht : '"' ∉ t) (rest : List Char) :
    shellSplitAux false none ('"' :: t ++ '"' :: ' ' :: rest) =
      t :: shellSplitAux false none rest := by
  have h1 : shellSplitAux false none ('"' :: t ++ '"' :: ' ' :: rest) =
      shellSplitAux true (some []) (t ++ '"' :: ' ' :: rest) := by
    simp [shellSplitAux]
  rw [h1, shellSplitAux_quoted t ht [] (' ' :: rest), List.nil_append]
  simp [shellSplitAux]

theorem shellSplitAux_bash (rest : List Char) :
    shellSplitAux false none (pstr "bash " ++ rest) =
      pstr "bash" :: shellSplitAux false none rest := rfl

theorem buildCmd_shape (s p : List Char) (hid : Bool) :
    buildCmd s p hid = pstr "bash " ++ ('"' :: CONFIGURE_WIFI_SCRIPT ++ '"' :: ' ' ::
      ('"' :: s ++ '"' :: ' ' :: ('"' :: p ++ '"' :: ' ' ::
        (if hid then pstr "200 --hidden" else pstr "200")))) := by
  cases hid <;> simp only [buildCmd, if_true, if_false, Bool.false_eq_true] <;>
    simp only [List.append_assoc, List.cons_append] <;> rfl

theorem shellSplit_buildCmd (s p : List Char) (hs : '"' ∉ s) (hp : '"' ∉ p)
    (hid : Bool) :
    shellSplit (buildCmd s p hid) =
      [pstr "bash", CONFIGURE_WIFI_SCRIPT, s, p] ++
        (if hid then [pstr "200", pstr "--hidden"] else [pstr "200"]) := by
  rw [shellSplit, buildCmd_shape, shellSplitAux_bash,
    shellSplitAux_dq_space CONFIGURE_WIFI_SCRIPT (by decide),
    shellSplitAux_dq_space s hs, shellSplitAux_dq_space p hp]
  cases hid
  · rw [if_neg (by decide), if_neg (by decide),
      show shellSplitAux false none (pstr "200") = [pstr "200"] from by decide]
    rfl
  · rw [if_pos rfl, if_pos rfl,
      show shellSplitAux false none (pstr "200 --hidden") =
        [pstr "200", pstr "--hidden"] from by decide]
    rfl

/-! ### Claim theorems -/

/-- C2: the claim requires admission control, but `configure_wifi` consults
no in-flight-attempt state whatsoever (in the embedding it is a pure
function of the single request): here two valid requests — the second
arriving while the first attempt's 35-second watchdog cannot yet have
resolved — are BOTH answered with success and BOTH spawn a background
watchdog, so two watchdogs run simultaneously and nothing is rejected. -/
theorem c2_no_admission_control :
    (configure_wifi ⟨pstr "HomeNetA", pstr "password1", false⟩).1 = ⟨true, 200⟩ ∧
    (configure_wifi ⟨pstr "HomeNetA", pstr "password1", false⟩).2 =
      some ⟨pstr "HomeNetA", pstr "password1", false⟩ ∧
    (configure_wifi ⟨pstr "OtherNetB", pstr "password2", true⟩).1 = ⟨true, 200⟩ ∧
    (configure_wifi ⟨pstr "OtherNetB", pstr "password2", true⟩).2 =
      some ⟨pstr "OtherNetB", pstr "password2", true⟩ := by decide

/-- C3: every scan output has pairwise-distinct SSIDs, each candidate is the
one contributed by the first raw line parsing to its SSID, no candidate
carries the empty or `--` placeholder SSID, the output is sorted by signal
key descending, and a non-numeric signal string has key 0. -/
theorem c3_scan_invariants (code : Int) (lines : List (List Char)) :
    ((get_available_networks code lines).map Network.ssid).Nodup ∧
    (∀ n ∈ get_available_networks code lines,
      firstCandidate? lines n.ssid = some n) ∧
    (∀ n ∈ get_available_networks code lines,
      n.ssid ≠ [] ∧ n.ssid ≠ pstr "--") ∧
    List.Sorted sigGE (get_available_networks code lines) ∧
    (∀ n : Network, n.signal.all Char.isDigit = false → sigKey n = 0) := by
  have hmem : ∀ n, n ∈ get_available_networks code lines →
      n ∈ (if code = 0 then collectNetworks lines [] else []) := by
    intro n hn
    exact ((sortNetworks_perm _).mem_iff).mp hn
  refine ⟨?_, ?_, ?_, ?_, ?_⟩
  · have hperm := (sortNetworks_perm
      (if code = 0 then collectNetworks lines [] else [])).map Network.ssid
    rw [get_available_networks]
    refine hperm.nodup_iff.mpr ?_
    by_cases h0 : code = 0
    · rw [if_pos h0]; exact collect_map_ssid_nodup lines []
    · rw [if_neg h0]; exact List.nodup_nil
  · intro n hn
    have := hmem n hn
    by_cases h0 : code = 0
    · rw [if_pos h0] at this
      exact collect_first_wins lines [] n this
    · rw [if_neg h0] at this
      simp at this
  · intro n hn
    have := hmem n hn
    by_cases h0 : code = 0
    · rw [if_pos h0] at this
      exact collect_good_ssid lines [] n this
    · rw [if_neg h0] at this
      simp at this
  · exact List.sorted_insertionSort sigGE _
  · intro n hd
    unfold sigKey
    rw [if_neg]
    intro hcond
    rw [hcond.2] at hd
    exact Bool.true_eq_false.mp hd

/-- C3 witness: on the raw lines `HomeNet:80:WPA2`, `--:0:`,
`HomeNet:60:WPA2` the single resulting candidate is the one from the first
`HomeNet` line (signal 80, secured). -/
theorem c3_witness :
    firstCandidate?
      [pstr "HomeNet:80:WPA2", pstr "--:0:", pstr "HomeNet:60:WPA2"]
      (pstr "HomeNet") = some ⟨pstr "HomeNet", pstr "80", true⟩ :=
  (c3_scan_invariants 0
    [pstr "HomeNet:80:WPA2", pstr "--:0:", pstr "HomeNet:60:WPA2"]).2.1
    ⟨pstr "HomeNet", pstr "80", true⟩ (by decide)

/-- C4: with the network manager reporting exactly one wireless connection
in the activated state (name `HomeNet`, address `192.168.1.5/24`), the
status endpoint nevertheless answers not-connected with both fields absent:
the second pipeline greps the `NAME:IP4.ADDRESS` lines for the string
`802-11-wireless`, which such lines do not contain, so the success branch is
unreachable for ordinary connection names. -/
theorem c4_status_misreports :
    statusOf [⟨pstr "HomeNet", pstr "802-11-wireless", pstr "activated",
      pstr "192.168.1.5/24"⟩] = ⟨false, none, none⟩ ∧
    statusOf [⟨pstr "HomeNet", pstr "802-11-wireless", pstr "activated",
      pstr "192.168.1.5/24"⟩] ≠
      ⟨true, some (pstr "HomeNet"), some (pstr "192.168.1.5/24")⟩ := by decide

/-- C5: `validate_ssid` accepts exactly lengths 1..32 and
`validate_password` accepts exactly lengths 8..63, with the boundary lengths
1, 32, 8, 63 accepted and 0, 33, 7, 64 rejected. -/
theorem c5_validators (s p : List Char) :
    (validate_ssid s = true ↔ 1 ≤ s.length ∧ s.length ≤ 32) ∧
    (validate_password p = true ↔ 8 ≤ p.length ∧ p.length ≤ 63) ∧
    validate_ssid (List.replicate 1 'a') = true ∧
    validate_ssid (List.replicate 32 'a') = true ∧
    validate_ssid (List.replicate 0 'a') = false ∧
    validate_ssid (List.replicate 33 'a') = false ∧
    validate_password (List.replicate 8 'a') = true ∧
    validate_password (List.replicate 63 'a') = true ∧
    validate_password (List.replicate 7 'a') = false ∧
    validate_password (List.replicate 64 'a') = false := by
  refine ⟨?_, ?_, by decide, by decide, by decide, by decide, by decide,
    by decide, by decide, by decide⟩
  · unfold validate_ssid
    by_cases h : s = [] ∨ 32 < s.length
    · rw [if_pos h]
      simp only [Bool.false_eq_true, false_iff]
      rcases h with h | h
      · rw [h]; simp
      · omega
    · rw [if_neg h]
      push_neg at h
      have : 0 < s.length := List.length_pos.mpr h.1
      simp only [true_iff]
      omega
  · unfold validate_password
    by_cases h1 : p = []
    · rw [if_pos h1, h1]
      simp
    · rw [if_neg h1]
      by_cases h2 : p.length < 8 ∨ 63 < p.length
      · rw [if_pos h2]
        simp only [Bool.false_eq_true, false_iff]
        omega
      · rw [if_neg h2]
        push_neg at h2
        simp only [true_iff]
        omega

/-- C6: a `/configure` request whose (stripped) ssid or whose passphrase
fails validation is answered with HTTP 400 and `success: false`, and no
background watchdog is spawned (the join command is never dispatched). -/
theorem c6_validation_rejects (req : ConfigureReq)
    (h : validate_ssid (pyStrip req.ssid) = false ∨
      validate_password req.password = false) :
    (configure_wifi req).1 = ⟨false, 400⟩ ∧ (configure_wifi req).2 = none := by
  unfold configure_wifi
  rcases h with h | h
  · simp [h]
  · cases hs : validate_ssid (pyStrip req.ssid) <;> simp [h, hs]

/-- C6 witness: the spec scenario `ssid = "A"*33, password = "longenough1"`
is rejected with 400 and spawns nothing. -/
theorem c6_witness :
    (configure_wifi ⟨List.replicate 33 'A', pstr "longenough1", false⟩).1 =
      ⟨false, 400⟩ ∧
    (configure_wifi ⟨List.replicate 33 'A', pstr "longenough1", false⟩).2 =
      none :=
  c6_validation_rejects ⟨List.replicate 33 'A', pstr "longenough1", false⟩
    (Or.inl (by decide))

/-- C7 counterexample: the request submitting ssid `" Home "` (with
surrounding spaces) is accepted, but the watchdog it spawns carries, and its
command line passes, the stripped ssid `"Home"` — not the submitted one —
so the join executable is not invoked with exactly the submitted ssid. -/
theorem c7_counterexample :
    (configure_wifi ⟨pstr " Home ", pstr "password1", false⟩).2 =
      some ⟨pstr "Home", pstr "password1", false⟩ ∧
    shellSplit (jobCmd ⟨pstr "Home", pstr "password1", false⟩) =
      [pstr "bash", CONFIGURE_WIFI_SCRIPT, pstr "Home", pstr "password1",
        pstr "200"] ∧
    pstr "Home" ≠ pstr " Home " := by decide

/-- Already within the double-quote handling the embedding does model (and
real bash performs), a double quote in an accepted ssid breaks exact
positional passing: the request submitting ssid `a"b` is length-valid and
accepted, yet the third word of its join command line is not `a"b` — the
interpolated quote closes the template's quoting early.  Dollar, backtick
and backslash break the contract through expansions that lie beyond the
embedding; `shellLiteral` excludes all four, and only on that class is the
positional-argument contract below provable about the program rather than
merely about the model. -/
theorem shellSplit_mangled_by_quote :
    (configure_wifi ⟨pstr "a\"b", pstr "password1", false⟩).2 =
      some ⟨pstr "a\"b", pstr "password1", false⟩ ∧
    (shellSplit (jobCmd ⟨pstr "a\"b", pstr "password1", false⟩)).getD 2 [] ≠
      pstr "a\"b" := by decide

/-- C7 (amended): for every accepted `/configure` request whose stripped
ssid and whose passphrase contain none of the four characters that are
shell-active inside double quotes (double quote, dollar, backtick,
backslash — the class on which the embedded word-splitting coincides with
bash), the join command line word-splits into the join script invoked with
exactly the whitespace-stripped submitted ssid, the submitted passphrase,
and the fixed value 200 as positional arguments, followed by the `--hidden`
flag iff hidden was requested. -/
theorem c7_join_args (req : ConfigureReq) (job : BackgroundJob)
    (hacc : (configure_wifi req).2 = some job)
    (hs : shellLiteral (pyStrip req.ssid)) (hp : shellLiteral req.password) :
    shellSplit (jobCmd job) =
      [pstr "bash", CONFIGURE_WIFI_SCRIPT, pyStrip req.ssid, req.password,
        pstr "200"] ++
        (if req.hidden then [pstr "--hidden"] else []) := by
  obtain ⟨hjob, -, -⟩ := configure_accepted hacc
  subst hjob
  show shellSplit (buildCmd (pyStrip req.ssid) req.password req.hidden) = _
  rw [shellSplit_buildCmd _ _ hs.1 hp.1]
  cases req.hidden <;> rfl

/-- C7 witness: the accepted request with submitted ssid `" Home "`,
passphrase `password1`, hidden not requested. -/
theorem c7_witness :
    shellSplit (jobCmd ⟨pstr "Home", pstr "password1", false⟩) =
      [pstr "bash", CONFIGURE_WIFI_SCRIPT, pyStrip (pstr " Home "),
        pstr "password1", pstr "200"] ++
        (if (⟨pstr " Home ", pstr "password1", false⟩ : ConfigureReq).hidden
          then [pstr "--hidden"] else []) :=
  c7_join_args ⟨pstr " Home ", pstr "password1", false⟩
    ⟨pstr "Home", pstr "password1", false⟩ (by decide)
    (by refine ⟨by decide, by decide, by decide, by decide⟩)
    (by refine ⟨by decide, by decide, by decide, by decide⟩)

/-- C9 counterexample: the raw scan line `MyNet` has a non-empty,
non-placeholder SSID and lacks both trailing fields (no `:` at all), yet
`scan()` yields no candidate for it — the line is dropped by the
`len(parts) >= 2` guard rather than tolerated. -/
theorem c9_counterexample :
    pstr "MyNet" ≠ [] ∧ pstr "MyNet" ≠ pstr "--" ∧
    get_available_networks 0 [pstr "MyNet"] = [] := by decide

/-- C9 (amended): a raw line with a good SSID yields a candidate only when
at least the SIGNAL delimiter is present: a delimiter-free line consisting
of only the SSID is dropped, while the same SSID followed by `:` (empty
SIGNAL, missing SECURITY) yields a candidate treated as unsecured whose
empty signal sorts as 0. -/
theorem c9_missing_fields (s : List Char) (h1 : ':' ∉ s) (h2 : s ≠ [])
    (h3 : s ≠ pstr "--") :
    get_available_networks 0 [s] = [] ∧
    get_available_networks 0 [s ++ [':']] = [⟨s, [], false⟩] ∧
    sigKey ⟨s, [], false⟩ = 0 := by
  have hc1 : candidateOf? s = none := by
    unfold candidateOf?
    rw [if_neg h2]
    rw [splitOnChar_no_sep h1]
    rfl
  have hparts : splitOnChar ':' (s ++ [':']) = [s, []] := by
    rw [show s ++ [':'] = s ++ ':' :: [] from rfl, splitOnChar_append_sep [] h1]
    rfl
  have hc2 : candidateOf? (s ++ [':']) = some ⟨s, [], false⟩ := by
    unfold candidateOf?
    rw [if_neg (by simp [h2] : ¬s ++ [':'] = [])]
    rw [hparts]
    rw [if_pos (by simp), if_pos ⟨h2, h3⟩]
    rfl
  refine ⟨?_, ?_, rfl⟩
  · unfold get_available_networks
    rw [if_pos rfl]
    simp only [collectNetworks, hc1]
    rfl
  · unfold get_available_networks
    rw [if_pos rfl]
    simp only [collectNetworks, hc2]
    rw [if_neg (List.not_mem_nil _)]
    rfl

/-- C9 witness: the concrete SSID `MyNet`. -/
theorem c9_witness :
    get_available_networks 0 [pstr "MyNet"] = [] ∧
    get_available_networks 0 [pstr "MyNet" ++ [':']] =
      [⟨pstr "MyNet", [], false⟩] ∧
    sigKey ⟨pstr "MyNet", [], false⟩ = 0 :=
  c9_missing_fields (pstr "MyNet") (by decide) (by decide) (by decide)

/-- C10: the submitted ssid is stripped of surrounding whitespace before
validation and use — a whitespace-only ssid is rejected with 400 and spawns
nothing, and any spawned watchdog carries the stripped ssid, whose first and
last characters are never whitespace — while the submitted password is
carried verbatim, unstripped. -/
theorem c10_ssid_stripped (req : ConfigureReq) :
    ((∀ c ∈ req.ssid, isPySpace c = true) →
      (configure_wifi req).1 = ⟨false, 400⟩ ∧ (configure_wifi req).2 = none) ∧
    ∀ job, (configure_wifi req).2 = some job →
      job.ssidUsed = pyStrip req.ssid ∧
      (∀ c, job.ssidUsed.head? = some c → isPySpace c = false) ∧
      (∀ c, job.ssidUsed.getLast? = some c → isPySpace c = false) ∧
      job.passwordUsed = req.password := by
  constructor
  · intro hws
    have h0 : pyStrip req.ssid = [] := pyStrip_all_space hws
    have hv : validate_ssid (pyStrip req.ssid) = false := by
      rw [h0]; decide
    unfold configure_wifi
    simp [hv]
  · intro job hj
    obtain ⟨hjob, -, -⟩ := configure_accepted hj
    subst hjob
    exact ⟨rfl, fun c hc => pyStrip_head_not_space hc,
      fun c hc => pyStrip_getLast_not_space hc, rfl⟩

/-- C10 witness: a whitespace-only ssid is rejected, and the accepted
request with submitted ssid `" Net "` spawns a watchdog carrying the
stripped ssid `"Net"`. -/
theorem c10_witness :
    (configure_wifi ⟨pstr "   ", pstr "password1", false⟩).1 = ⟨false, 400⟩ ∧
    (⟨pstr "Net", pstr "password1", false⟩ : BackgroundJob).ssidUsed =
      pyStrip (pstr " Net ") :=
  ⟨((c10_ssid_stripped ⟨pstr "   ", pstr "password1", false⟩).1 (by decide)).1,
   ((c10_ssid_stripped ⟨pstr " Net ", pstr "password1", false⟩).2
      ⟨pstr "Net", pstr "password1", false⟩ (by decide)).1⟩

end WifiPortal
